import Mathlib

/-
  Verification development for the Back-To-Top-Button Obsidian plugin
  (src/main.js).  The plugin's pure logic is embedded shallowly:

  * `matchHeader` models the per-line regex test
    `line.match(/^(#{1,6})\s+(.*)/)` of `refreshHeaderList`.  The regex is
    anchored, `#{1,6}` and `\s+` are greedy, and since the character after
    any shorter prefix of the leading `#`-run is `#` (not whitespace), the
    match succeeds exactly when the full leading `#`-run has length 1..6
    and is followed by at least one whitespace character; group 2 is the
    remainder after the maximal whitespace run.  `\s` is modelled by
    `Char.isWhitespace`; documents are modelled over characters without
    carriage returns or exotic Unicode whitespace, so `.` matches every
    remaining character of a line.
  * `splitNl` models `doc.getValue().split('\n')`.
  * `extractFrom` models the per-line matching pass of the
    `lines.forEach((line, index) => ...)` loop; `refreshFrom` additionally
    applies the tier filter exactly as written in the loop body.
  * `refreshHeaderList` models the whole method including
    `this.headerList.innerHTML = ''` (the list content is cleared first)
    and the `activeFile` / `editor` precondition checks, which return
    early.  The previous list contents are passed in to show the result
    never depends on them.
  * Settings mutations model `loadSettings` (an `Object.assign` merge of
    defaults under the persisted record) and the two `onChange` handlers
    of `BackToTopSettingsTab.display`.
  * `runDebounce` models the closure produced by `debounce(func, delay)`:
    one pending `setTimeout` handle at a time, each invocation clears it
    and schedules a new run `delay` time units later.
  * `updateMenu` models the DOM effect of `BackToTopPlugin.updateMenu` on
    the plugin-owned overlay nodes (`topButton`, `menuContainer`) and on
    the number of `layout-change` positioning listeners registered by the
    enabled branch.
-/

namespace BackToTop

/-- A heading record extracted from one document line: the count of leading
`#` characters, the text after the separating whitespace, and the
zero-based line index (`headerItem.dataset.line = index`). -/
structure HeadingRecord where
  level : Nat
  text : List Char
  sourceLineIndex : Nat
  deriving DecidableEq, Repr

/-- Model of `line.match(/^(#{1,6})\s+(.*)/)` from `refreshHeaderList`:
`some (level, text)` when the line matches, where `level` is the length of
the leading `#` run (1..6) and `text` is group 2, the remainder of the
line after the maximal whitespace run that follows the hashes. -/
def matchHeader (line : List Char) : Option (Nat × List Char) :=
  if 1 ≤ (line.takeWhile (fun c => c == '#')).length ∧
      (line.takeWhile (fun c => c == '#')).length ≤ 6 then
    if 1 ≤ ((line.dropWhile (fun c => c == '#')).takeWhile
        (fun c => c.isWhitespace)).length then
      some ((line.takeWhile (fun c => c == '#')).length,
        (line.dropWhile (fun c => c == '#')).dropWhile (fun c => c.isWhitespace))
    else none
  else none

/-- Model of `doc.getValue().split('\n')`: JavaScript `split` on the empty
string yields `[""]`, and a trailing newline yields a final empty line. -/
def splitNl : List Char → List (List Char)
  | [] => [[]]
  | c :: cs =>
    match splitNl cs with
    | [] => [[]]
    | l :: ls => if c = '\n' then [] :: l :: ls else (c :: l) :: ls

/-- The per-line matching pass of the `lines.forEach((line, index) => ...)`
loop of `refreshHeaderList`, before the tier filter: one record per
matching line, carrying its line index. -/
def extractFrom : Nat → List (List Char) → List HeadingRecord
  | _, [] => []
  | i, line :: rest =>
    match matchHeader line with
    | some (level, text) => ⟨level, text, i⟩ :: extractFrom (i + 1) rest
    | none => extractFrom (i + 1) rest

/-- Heading extraction over a whole document text. -/
def extractHeadings (doc : List Char) : List HeadingRecord :=
  extractFrom 0 (splitNl doc)

/-- The persisted display settings.  `previousShowH1/H2/H3` are absent
(`undefined`) until the menu is first disabled, hence `Option Bool`. -/
structure BTSettings where
  enableHeaderMenu : Bool
  showH1 : Bool
  showH2 : Bool
  showH3 : Bool
  previousShowH1 : Option Bool
  previousShowH2 : Option Bool
  previousShowH3 : Option Bool
  deriving DecidableEq, Repr

/-- The tier filter of the `forEach` loop body: a heading of the given
level is kept unless
`(level === 1 && !showH1) || (level === 2 && !showH2) ||
 (level === 3 && !showH3) || level > 3`. -/
def tierAllowed (s : BTSettings) (level : Nat) : Bool :=
  !((level == 1 && !s.showH1) || (level == 2 && !s.showH2) ||
    (level == 3 && !s.showH3) || decide (3 < level))

/-- The full `lines.forEach` loop of `refreshHeaderList`: per-line
matching combined with the inline tier filter (`return` skips the line). -/
def refreshFrom (s : BTSettings) : Nat → List (List Char) → List HeadingRecord
  | _, [] => []
  | i, line :: rest =>
    match matchHeader line with
    | some (level, text) =>
      if (level == 1 && !s.showH1) || (level == 2 && !s.showH2) ||
         (level == 3 && !s.showH3) || decide (3 < level) then
        refreshFrom s (i + 1) rest
      else ⟨level, text, i⟩ :: refreshFrom s (i + 1) rest
    | none => refreshFrom s (i + 1) rest

/-- Model of the whole `refreshHeaderList` method.  The method first clears
the list (`this.headerList.innerHTML = ''`), then returns early when there
is no active file or no `cmEditor` handle, and otherwise rebuilds the list
from the document text.  `prevItems` is the list content before the call;
the result never reads it. -/
def refreshHeaderList (s : BTSettings) (hasActiveFile : Bool)
    (editorDoc : Option (List Char)) (prevItems : List HeadingRecord) :
    List HeadingRecord :=
  let cleared : List HeadingRecord := []
  if hasActiveFile = false then cleared
  else
    match editorDoc with
    | none => cleared
    | some doc => refreshFrom s 0 (splitNl doc)

/-- The persisted record as `loadData()` may return it: any subset of the
keys may be present (absent keys are `none`); `none` for the whole record
models `loadData()` returning `undefined`/`null`. -/
structure StoredSettings where
  enableHeaderMenu : Option Bool
  showH1 : Option Bool
  showH2 : Option Bool
  showH3 : Option Bool
  previousShowH1 : Option Bool
  previousShowH2 : Option Bool
  previousShowH3 : Option Bool
  deriving DecidableEq, Repr

/-- Model of `loadSettings`:
`Object.assign({enableHeaderMenu: true, showH1: true, showH2: true,
showH3: true}, await this.loadData())` — persisted values win over the
defaults for every key present; the `previous*` keys have no default. -/
def loadSettings : Option StoredSettings → BTSettings
  | none => ⟨true, true, true, true, none, none, none⟩
  | some st =>
    ⟨st.enableHeaderMenu.getD true, st.showH1.getD true, st.showH2.getD true,
      st.showH3.getD true, st.previousShowH1, st.previousShowH2,
      st.previousShowH3⟩

/-- Model of `saveData(this.settings)`: the in-memory settings persisted
verbatim. -/
def settingsToStored (s : BTSettings) : StoredSettings :=
  ⟨some s.enableHeaderMenu, some s.showH1, some s.showH2, some s.showH3,
    s.previousShowH1, s.previousShowH2, s.previousShowH3⟩

/-- Model of the `onChange` handler of the `Enable Header Menu` toggle:
disabling snapshots the three tier flags into the `previous*` keys and
forces the tier flags false; enabling restores them from the `previous*`
keys, each defaulting to true (`?? true`) when its snapshot is absent. -/
def toggleMenuEnabled (s : BTSettings) (value : Bool) : BTSettings :=
  if value then
    { s with enableHeaderMenu := true,
             showH1 := s.previousShowH1.getD true,
             showH2 := s.previousShowH2.getD true,
             showH3 := s.previousShowH3.getD true }
  else
    { s with enableHeaderMenu := false,
             previousShowH1 := some s.showH1,
             previousShowH2 := some s.showH2,
             previousShowH3 := some s.showH3,
             showH1 := false, showH2 := false, showH3 := false }

/-- One of the three tier toggles of the settings tab. -/
inductive Tier
  | h1
  | h2
  | h3
  deriving DecidableEq, Repr

/-- Model of the `onChange` handler of a `Show H1/H2/H3` toggle: set the
flag, and `if (value) this.plugin.settings.enableHeaderMenu = true`. -/
def toggleTier (s : BTSettings) (t : Tier) (value : Bool) : BTSettings :=
  let s' :=
    match t with
    | .h1 => { s with showH1 := value }
    | .h2 => { s with showH2 := value }
    | .h3 => { s with showH3 := value }
  if value then { s' with enableHeaderMenu := true } else s'

/-- The coupling invariant of the settings, as a decidable check: either
the header menu is enabled, or all three tier flags are off.  Equivalent
to: `enableHeaderMenu = false` forces every `show*` flag false, and any
true `show*` flag forces `enableHeaderMenu = true`. -/
def settingsCoupled (s : BTSettings) : Bool :=
  s.enableHeaderMenu || (!s.showH1 && !s.showH2 && !s.showH3)

/-- Model of the closure produced by `debounce(func, delay)`, run over a
nondecreasing trace of invocation times.  The state is the scheduled fire
time of the single pending `setTimeout` handle, if any.  A pending run due
at `p` fires before an invocation at time `t ≥ p`; otherwise the
invocation's `clearTimeout(timer)` cancels it, and
`setTimeout(..., delay)` schedules a new run at `t + delay`.  The result
is the list of times at which the wrapped action actually runs. -/
def runDebounce (d : Nat) : Option Nat → List Nat → List Nat
  | none, [] => []
  | some p, [] => [p]
  | none, t :: ts => runDebounce d (some (t + d)) ts
  | some p, t :: ts =>
    if p ≤ t then p :: runDebounce d (some (t + d)) ts
    else runDebounce d (some (t + d)) ts

/-- The style values assigned by `positionFloatingElements`, in CSS pixel
units (`clientWidth` based arithmetic modelled over `ℚ`). -/
structure OverlayGeometry where
  menuWidthPx : ℚ
  menuBottom : ℚ
  menuRight : ℚ
  buttonWidthPx : ℚ
  buttonBottom : ℚ
  buttonRight : ℚ
  deriving DecidableEq, Repr

/-- Model of `positionFloatingElements(editorContainer)`:
`menuWidth = Math.max(120, editorWidth * 0.1)`, applied to the width of
both the menu container and the top button, with the fixed offsets
75/30 (menu) and 30/30 (button) from bottom/right. -/
def positionFloatingElements (editorWidth : ℚ) : OverlayGeometry :=
  let menuWidth := max 120 (editorWidth * (1 / 10))
  ⟨menuWidth, 75, 30, menuWidth, 30, 30⟩

/-- The two plugin-owned overlay DOM nodes. -/
inductive ONode
  | topButton
  | menuContainer
  deriving DecidableEq, Repr

/-- The overlay-relevant DOM state: which plugin-owned nodes are attached
to the editor container (in child order), and how many `layout-change`
positioning listeners the enabled branch of `updateMenu` has registered so
far (they are only removed on unload). -/
structure OverlayState where
  children : List ONode
  extraLayoutListeners : Nat
  deriving DecidableEq, Repr

/-- The host-side preconditions probed by `updateMenu`: whether the active
leaf is a markdown view, whether it is in source mode, and whether the
`.cm-s-obsidian` container lookup succeeds.  An absent active leaf makes
the first two false. -/
structure Env where
  isMarkdown : Bool
  isSourceMode : Bool
  containerFound : Bool
  deriving DecidableEq, Repr

/-- Model of `removeFloatingElements`: `menuContainer?.remove()` and
`topButton?.remove()` detach both nodes from wherever they are. -/
def removeFloatingElements (st : OverlayState) : OverlayState :=
  { st with children := st.children.filter fun n =>
      !(n == ONode.topButton) && !(n == ONode.menuContainer) }

/-- Model of `updateMenu`: always detach both nodes first; when the active
view is markdown in source mode and the container is found, append the top
button, and when `enableHeaderMenu` is set also append the menu container
and register one more `layout-change` positioning listener
(`this.registerEvent(this.app.workspace.on('layout-change', ...))`). -/
def updateMenu (enableHeaderMenu : Bool) (env : Env) (st : OverlayState) :
    OverlayState :=
  let st1 := removeFloatingElements st
  if env.isMarkdown && env.isSourceMode && env.containerFound then
    let st2 := { st1 with children := st1.children ++ [ONode.topButton] }
    if enableHeaderMenu then
      { st2 with
          children := st2.children ++ [ONode.menuContainer],
          extraLayoutListeners := st2.extraLayoutListeners + 1 }
    else st2
  else st1

/-- Spec-side description of an ATX heading line (for the refinement
claims): `level` leading `#` characters (1..6), then a nonempty run of
whitespace, then `text`, the remainder of the line after that first
(maximal) whitespace run — so `text` does not begin with whitespace. -/
def AtxMatch (line : List Char) (level : Nat) (text : List Char) : Prop :=
  1 ≤ level ∧ level ≤ 6 ∧
    ∃ ws : List Char, ws ≠ [] ∧ (∀ c ∈ ws, c.isWhitespace = true) ∧
      (∀ c, text.head? = some c → c.isWhitespace = false) ∧
      line = List.replicate level '#' ++ ws ++ text

/-- Spec-side decidable test for the strict ATX pattern quoted by the
spec: one to six leading `#` characters, then at least one whitespace
character, then NON-EMPTY remaining text. -/
def lineMatchesStrictAtx (line : List Char) : Bool :=
  decide (1 ≤ (line.takeWhile (fun c => c == '#')).length) &&
    decide ((line.takeWhile (fun c => c == '#')).length ≤ 6) &&
    decide (1 ≤ ((line.dropWhile (fun c => c == '#')).takeWhile
      (fun c => c.isWhitespace)).length) &&
    decide ((line.dropWhile (fun c => c == '#')).dropWhile
      (fun c => c.isWhitespace) ≠ [])

/-! ## Helper lemmas -/

/-- Persisting the in-memory settings and loading them back is the
identity: `Object.assign` lets every persisted key win and every key is
present in a record saved by `saveSettings`. -/
theorem loadSettings_settingsToStored (s : BTSettings) :
    loadSettings (some (settingsToStored s)) = s := by
  cases s
  rfl

/-! ## Claim theorems -/

/-- Claim C5: disabling `enableHeaderMenu` and then re-enabling it with no
intervening tier changes restores `showH1/H2/H3` to their exact prior
values; re-enabling when no `previous*` snapshot exists sets all three
tier flags to true. -/
theorem toggleMenu_disable_enable_restores :
    (∀ s : BTSettings,
      (toggleMenuEnabled (toggleMenuEnabled s false) true).showH1 = s.showH1 ∧
      (toggleMenuEnabled (toggleMenuEnabled s false) true).showH2 = s.showH2 ∧
      (toggleMenuEnabled (toggleMenuEnabled s false) true).showH3 = s.showH3) ∧
    (∀ s : BTSettings, s.previousShowH1 = none → s.previousShowH2 = none →
      s.previousShowH3 = none →
      (toggleMenuEnabled s true).showH1 = true ∧
      (toggleMenuEnabled s true).showH2 = true ∧
      (toggleMenuEnabled s true).showH3 = true) := by
  constructor
  · intro s
    exact ⟨rfl, rfl, rfl⟩
  · intro s h1 h2 h3
    simp [toggleMenuEnabled, h1, h2, h3]

/-- Witness for C5: a concrete settings state with no snapshot; re-enabling
turns the tier flags on. -/
theorem toggleMenu_disable_enable_restores_witness :
    (toggleMenuEnabled ⟨false, false, true, false, none, none, none⟩ true).showH1
      = true :=
  (toggleMenu_disable_enable_restores.2
    ⟨false, false, true, false, none, none, none⟩ rfl rfl rfl).1

/-- Claim C4 counterexample: loading a persisted record with
`enableHeaderMenu = false` and `showH1 = true` leaves the settings in a
state violating the coupling invariant — `loadSettings` merges values but
enforces no coupling, so the invariant does NOT hold after every mutation
as the claim states. -/
theorem loadSettings_coupling_cex :
    settingsCoupled
      (loadSettings (some ⟨some false, some true, none, none, none, none, none⟩))
      = false := by
  rfl

/-- Claim C4 (amended): the coupling invariant holds after every
settings-tab mutation — both branches of the menu toggle, enabling any
tier (which also forces `enableHeaderMenu := true`), and disabling a tier
from a coupled state — and loading re-establishes it for absent stored
data or for data the plugin itself saved from a coupled state; but
`loadSettings` itself does not enforce the invariant on arbitrary stored
records. -/
theorem settings_coupling_after_mutations :
    (∀ (s : BTSettings) (v : Bool),
      settingsCoupled (toggleMenuEnabled s v) = true) ∧
    (∀ (s : BTSettings) (t : Tier),
      settingsCoupled (toggleTier s t true) = true ∧
      (toggleTier s t true).enableHeaderMenu = true) ∧
    (∀ (s : BTSettings) (t : Tier) (v : Bool), settingsCoupled s = true →
      settingsCoupled (toggleTier s t v) = true) ∧
    settingsCoupled (loadSettings none) = true ∧
    (∀ s : BTSettings, settingsCoupled s = true →
      settingsCoupled (loadSettings (some (settingsToStored s))) = true) := by
  refine ⟨?_, ?_, ?_, rfl, ?_⟩
  · intro s v
    cases v <;> simp [toggleMenuEnabled, settingsCoupled]
  · intro s t
    cases t <;> simp [toggleTier, settingsCoupled]
  · intro s t v h
    rcases s with ⟨e, a, b, c, p1, p2, p3⟩
    cases t <;> cases v <;> cases e <;> cases a <;> cases b <;> cases c <;>
      simp_all [toggleTier, settingsCoupled]
  · intro s h
    rw [loadSettings_settingsToStored]
    exact h

/-- Witness for C4 (amended): disabling a tier from a concrete coupled
state keeps the coupling. -/
theorem settings_coupling_after_mutations_witness :
    settingsCoupled
      (toggleTier ⟨true, true, false, true, none, none, none⟩ Tier.h2 false)
      = true :=
  settings_coupling_after_mutations.2.2.1
    ⟨true, true, false, true, none, none, none⟩ Tier.h2 false rfl

/-- Claim C7: each invocation of the debounced trigger (delay 150) cancels
the pending scheduled run and schedules a new one 150 units later; hence
five invocations within a window shorter than 150 units run the wrapped
action exactly once, 150 units after the last invocation. -/
theorem debounce_spec :
    (∀ (p t : Nat) (ts : List Nat), t < p →
      runDebounce 150 (some p) (t :: ts) = runDebounce 150 (some (t + 150)) ts) ∧
    (∀ t1 t2 t3 t4 t5 : Nat, t1 ≤ t2 → t2 ≤ t3 → t3 ≤ t4 → t4 ≤ t5 →
      t5 < t1 + 150 →
      runDebounce 150 none [t1, t2, t3, t4, t5] = [t5 + 150]) := by
  constructor
  · intro p t ts h
    simp only [runDebounce]
    rw [if_neg (by omega)]
  · intro t1 t2 t3 t4 t5 h12 h23 h34 h45 h5
    simp only [runDebounce]
    rw [if_neg (show ¬t1 + 150 ≤ t2 by omega),
      if_neg (show ¬t2 + 150 ≤ t3 by omega),
      if_neg (show ¬t3 + 150 ≤ t4 by omega),
      if_neg (show ¬t4 + 150 ≤ t5 by omega)]

/-- Witness for C7: a pending run at 100 is cancelled by an invocation at
50, and five invocations at 0,10,20,30,40 produce a single run at 190. -/
theorem debounce_spec_witness :
    runDebounce 150 (some 100) [50] = runDebounce 150 (some 200) [] ∧
    runDebounce 150 none [0, 10, 20, 30, 40] = [190] :=
  ⟨debounce_spec.1 100 50 [] (by decide),
    debounce_spec.2 0 10 20 30 40 (by decide) (by decide) (by decide)
      (by decide) (by decide)⟩

/-- Claim C8: the overlay positioner computes a menu width of
`max(120, 0.1 × containerWidth)`, applies the same width to the heading
menu and to the scroll-control button, and a container width of 1000
yields width 120. -/
theorem positionFloatingElements_width (w : ℚ) :
    (positionFloatingElements w).menuWidthPx = max 120 (w / 10) ∧
    (positionFloatingElements w).buttonWidthPx =
      (positionFloatingElements w).menuWidthPx ∧
    (positionFloatingElements 1000).menuWidthPx = 120 := by
  refine ⟨?_, rfl, ?_⟩
  · simp only [positionFloatingElements]
    rw [mul_one_div]
  · norm_num [positionFloatingElements]

/-- Claim C10: `refreshHeaderList` clears the heading list before its
precondition checks, so its result never depends on the previous list
contents, and a refresh that fails its `activeFile` or editor-handle check
leaves the list empty rather than preserving the old items. -/
theorem refreshHeaderList_clears (s : BTSettings) (hasActiveFile : Bool)
    (editorDoc : Option (List Char)) (prev prev' : List HeadingRecord) :
    refreshHeaderList s hasActiveFile editorDoc prev =
      refreshHeaderList s hasActiveFile editorDoc prev' ∧
    refreshHeaderList s false editorDoc prev = [] ∧
    refreshHeaderList s true none prev = [] :=
  ⟨rfl, rfl, rfl⟩

/-- `removeFloatingElements` detaches both plugin-owned nodes, leaving the
container with no overlay children; other fields are untouched. -/
theorem removeFloatingElements_eq (st : OverlayState) :
    removeFloatingElements st = ⟨[], st.extraLayoutListeners⟩ := by
  cases st with
  | mk ch ls =>
    have h : ch.filter
        (fun n => !(n == ONode.topButton) && !(n == ONode.menuContainer)) = [] := by
      rw [List.filter_eq_nil_iff]
      intro a _
      cases a <;> decide
    simp [removeFloatingElements, h]

/-- One `updateMenu` step with all preconditions met and the header menu
enabled: the container ends with exactly the two overlay nodes, and one
more layout-change listener is registered. -/
theorem updateMenu_enabled_step (st : OverlayState) :
    updateMenu true ⟨true, true, true⟩ st =
      ⟨[ONode.topButton, ONode.menuContainer], st.extraLayoutListeners + 1⟩ := by
  simp [updateMenu, removeFloatingElements_eq]

/-- One `updateMenu` step with all preconditions met and the header menu
disabled: only the top button is attached and no listener is added. -/
theorem updateMenu_disabled_step (st : OverlayState) :
    updateMenu false ⟨true, true, true⟩ st =
      ⟨[ONode.topButton], st.extraLayoutListeners⟩ := by
  simp [updateMenu, removeFloatingElements_eq]

/-- After `n` repeated `updateMenu` events the registered listener count
has grown by `n` when the header menu is enabled, and is unchanged when it
is disabled. -/
theorem updateMenu_iterate_listeners (e : Bool) (n : Nat) (st : OverlayState) :
    ((updateMenu e ⟨true, true, true⟩)^[n] st).extraLayoutListeners =
      st.extraLayoutListeners + (if e then n else 0) := by
  induction n generalizing st with
  | zero => simp
  | succ m ih =>
    rw [Function.iterate_succ_apply']
    cases e with
    | false =>
      rw [updateMenu_disabled_step]
      simpa using ih st
    | true =>
      rw [updateMenu_enabled_step]
      have := ih st
      simp only [if_true] at this ⊢
      omega

/-- Claim C6 counterexample: two identical surface/layout events with the
header menu enabled leave TWO registered layout-change positioning
listeners, not at most one — `updateMenu` registers a fresh listener on
every enabled attach, so duplicate listeners do accumulate, contrary to
the claim. -/
theorem updateMenu_listener_accumulation_cex :
    ((updateMenu true ⟨true, true, true⟩)^[2]
        ⟨[], 0⟩ : OverlayState).extraLayoutListeners = 2 ∧
    ¬((updateMenu true ⟨true, true, true⟩)^[2]
        ⟨[], 0⟩ : OverlayState).extraLayoutListeners ≤ 1 := by
  constructor <;> decide

/-- Claim C6 (amended): after any positive number of repeated
surface/layout events with no actual surface change the overlay contains
exactly one scroll-control node, and exactly one menu node when the
header menu is enabled (none when disabled) — the detach-then-reattach
cycle never duplicates DOM nodes; but each enabled reattach registers one
additional layout-change listener, so after `n` events the listener count
has grown by `n`. -/
theorem updateMenu_repeated_events (e : Bool) (st : OverlayState) (n : Nat)
    (hn : 1 ≤ n) :
    ((updateMenu e ⟨true, true, true⟩)^[n] st).children.count ONode.topButton
      = 1 ∧
    ((updateMenu e ⟨true, true, true⟩)^[n] st).children.count ONode.menuContainer
      = (if e then 1 else 0) ∧
    ((updateMenu e ⟨true, true, true⟩)^[n] st).extraLayoutListeners =
      st.extraLayoutListeners + (if e then n else 0) := by
  obtain ⟨m, rfl⟩ : ∃ m, n = m + 1 := ⟨n - 1, by omega⟩
  refine ⟨?_, ?_, updateMenu_iterate_listeners e (m + 1) st⟩ <;>
    rw [Function.iterate_succ_apply'] <;>
    cases e <;>
    simp [updateMenu_enabled_step, updateMenu_disabled_step, List.count_cons]

/-- Witness for C6 (amended): one enabled event from an empty overlay
yields exactly one of each node. -/
theorem updateMenu_repeated_events_witness :
    ((updateMenu true ⟨true, true, true⟩)^[1]
        (⟨[], 0⟩ : OverlayState)).children.count ONode.topButton = 1 :=
  (updateMenu_repeated_events true ⟨[], 0⟩ 1 (by decide)).1

/-- Every record produced by the `refreshHeaderList` loop passed the tier
filter, whose `level > 3` disjunct caps the level at 3. -/
theorem mem_refreshFrom_level_le (s : BTSettings) :
    ∀ (ls : List (List Char)) (i : Nat) (r : HeadingRecord),
      r ∈ refreshFrom s i ls → r.level ≤ 3 := by
  intro ls
  induction ls with
  | nil =>
    intro i r h
    simp [refreshFrom] at h
  | cons l ls ih =>
    intro i r h
    rw [refreshFrom] at h
    split at h
    · split at h
      · exact ih (i + 1) r h
      · rename_i level text _ hcond
        rcases List.mem_cons.1 h with h | h
        · subst h
          show level ≤ 3
          by_contra hl
          exact hcond (by
            have h3 : (3 : Nat) < level := by omega
            simp [h3])
        · exact ih (i + 1) r h
    · exact ih (i + 1) r h

/-- Claim C3: the tier filter with `showH1 = false`, `showH2 = true`,
`showH3 = true` keeps, from headings of levels 1,2,3,4, exactly the
level-2 and level-3 records in their original order, and no heading of
level 4 or greater ever appears in the rendered list, whatever the
settings. -/
theorem tier_filtering_spec :
    (∀ (s : BTSettings) (r1 r2 r3 r4 : HeadingRecord),
      s.showH1 = false → s.showH2 = true → s.showH3 = true →
      r1.level = 1 → r2.level = 2 → r3.level = 3 → r4.level = 4 →
      [r1, r2, r3, r4].filter (fun r => tierAllowed s r.level) = [r2, r3]) ∧
    (∀ (s : BTSettings) (hasActiveFile : Bool) (editorDoc : Option (List Char))
      (prev : List HeadingRecord) (r : HeadingRecord),
      4 ≤ r.level → r ∉ refreshHeaderList s hasActiveFile editorDoc prev) := by
  constructor
  · intro s r1 r2 r3 r4 hs1 hs2 hs3 hl1 hl2 hl3 hl4
    have t1 : tierAllowed s 1 = false := by simp [tierAllowed, hs1]
    have t2 : tierAllowed s 2 = true := by simp [tierAllowed, hs2]
    have t3 : tierAllowed s 3 = true := by simp [tierAllowed, hs3]
    have t4 : tierAllowed s 4 = false := by simp [tierAllowed]
    simp [List.filter, hl1, hl2, hl3, hl4, t1, t2, t3, t4]
  · intro s hasActiveFile editorDoc prev r hr hmem
    cases hasActiveFile with
    | false => simp [refreshHeaderList] at hmem
    | true =>
      cases editorDoc with
      | none => simp [refreshHeaderList] at hmem
      | some doc =>
        simp only [refreshHeaderList] at hmem
        rw [if_neg (by simp)] at hmem
        exact absurd (mem_refreshFrom_level_le s (splitNl doc) 0 r hmem)
          (by omega)

/-- Witness for C3: concrete settings and concrete records of levels
1,2,3,4. -/
theorem tier_filtering_spec_witness :
    [(⟨1, ['a'], 0⟩ : HeadingRecord), ⟨2, ['b'], 1⟩, ⟨3, ['c'], 2⟩,
        ⟨4, ['d'], 3⟩].filter
      (fun r => tierAllowed ⟨true, false, true, true, none, none, none⟩ r.level)
      = [⟨2, ['b'], 1⟩, ⟨3, ['c'], 2⟩] :=
  tier_filtering_spec.1 ⟨true, false, true, true, none, none, none⟩
    ⟨1, ['a'], 0⟩ ⟨2, ['b'], 1⟩ ⟨3, ['c'], 2⟩ ⟨4, ['d'], 3⟩
    rfl rfl rfl rfl rfl rfl rfl

/-- Claim C9: every missing-precondition case is a silent no-op — when the
active view is not markdown, not in source mode, or the container lookup
fails, `updateMenu` leaves the overlay detached (no plugin nodes attached,
no listener registered); when there is no active file or no editor handle,
`refreshHeaderList` returns an empty list.  All operations are total
functions of the state: no failure is ever propagated. -/
theorem missing_preconditions_silent :
    (∀ (e : Bool) (env : Env) (st : OverlayState),
      env.isMarkdown = false ∨ env.isSourceMode = false ∨
        env.containerFound = false →
      (updateMenu e env st).children = [] ∧
      (updateMenu e env st).extraLayoutListeners = st.extraLayoutListeners) ∧
    (∀ (s : BTSettings) (editorDoc : Option (List Char))
      (prev : List HeadingRecord), refreshHeaderList s false editorDoc prev = []) ∧
    (∀ (s : BTSettings) (prev : List HeadingRecord),
      refreshHeaderList s true none prev = []) := by
  refine ⟨?_, fun s editorDoc prev => rfl, fun s prev => rfl⟩
  intro e env st h
  have hcond : (env.isMarkdown && env.isSourceMode && env.containerFound)
      = false := by
    rcases h with h | h | h <;> simp [h]
  rw [updateMenu, hcond]
  simp [removeFloatingElements_eq]

/-- Witness for C9: a concrete non-markdown environment detaches the
overlay. -/
theorem missing_preconditions_silent_witness :
    (updateMenu true ⟨false, true, true⟩
        (⟨[ONode.topButton], 5⟩ : OverlayState)).children = [] :=
  (missing_preconditions_silent.1 true ⟨false, true, true⟩
    ⟨[ONode.topButton], 5⟩ (Or.inl rfl)).1

/-- The first element surviving `dropWhile p` fails `p`. -/
theorem dropWhile_head?_not {α : Type} (p : α → Bool) :
    ∀ (l : List α) (c : α), (l.dropWhile p).head? = some c → p c = false := by
  intro l
  induction l with
  | nil =>
    intro c h
    simp [List.dropWhile] at h
  | cons a l ih =>
    intro c h
    rw [List.dropWhile_cons] at h
    split at h
    · exact ih c h
    · rename_i hpa
      simp only [List.head?_cons, Option.some.injEq] at h
      subst h
      exact Bool.eq_false_iff.mpr hpa

/-- `takeWhile`/`dropWhile` split an append at the boundary when the whole
prefix satisfies `p` and the suffix does not start with a `p`-element. -/
theorem takeWhile_all_append {α : Type} (p : α → Bool) :
    ∀ (xs ys : List α), (∀ c ∈ xs, p c = true) →
      (∀ c, ys.head? = some c → p c = false) →
      (xs ++ ys).takeWhile p = xs ∧ (xs ++ ys).dropWhile p = ys := by
  intro xs
  induction xs with
  | nil =>
    intro ys _ hys
    cases ys with
    | nil => exact ⟨rfl, rfl⟩
    | cons b ys =>
      have hb : p b = false := hys b rfl
      exact ⟨by simp [List.takeWhile_cons, hb], by simp [List.dropWhile_cons, hb]⟩
  | cons a xs ih =>
    intro ys hxs hys
    have hpa : p a = true := hxs a (List.mem_cons_self a xs)
    obtain ⟨h1, h2⟩ := ih ys (fun c hc => hxs c (List.mem_cons_of_mem a hc)) hys
    exact ⟨by simp [List.takeWhile_cons, hpa, h1],
      by simp [List.dropWhile_cons, hpa, h2]⟩

/-- The per-line matcher succeeds with `(k, t)` exactly when the line
decomposes as the spec describes: `k` leading hashes (1..6), a nonempty
maximal whitespace run, then `t`. -/
theorem matchHeader_eq_some_iff (line : List Char) (k : Nat) (t : List Char) :
    matchHeader line = some (k, t) ↔ AtxMatch line k t := by
  constructor
  · intro h
    rw [matchHeader] at h
    split at h
    case isFalse => exact absurd h (by simp)
    case isTrue h16 =>
      split at h
      case isFalse => exact absurd h (by simp)
      case isTrue hws =>
        simp only [Option.some.injEq, Prod.mk.injEq] at h
        obtain ⟨hk, ht⟩ := h
        subst hk
        subst ht
        refine ⟨h16.1, h16.2,
          (line.dropWhile (fun c => c == '#')).takeWhile (fun c => c.isWhitespace),
          ?_, ?_, ?_, ?_⟩
        · intro hnil
          rw [hnil] at hws
          simp at hws
        · intro c hc
          simpa using List.mem_takeWhile_imp hc
        · intro c hc
          exact dropWhile_head?_not _ _ c hc
        · have h1 : line.takeWhile (fun c => c == '#') =
              List.replicate (line.takeWhile (fun c => c == '#')).length '#' := by
            rw [List.eq_replicate_iff]
            refine ⟨rfl, fun b hb => ?_⟩
            simpa using List.mem_takeWhile_imp hb
          rw [List.append_assoc,
            List.takeWhile_append_dropWhile (fun c : Char => c.isWhitespace)
              (line.dropWhile (fun c => c == '#')), ← h1,
            List.takeWhile_append_dropWhile]
  · rintro ⟨hk1, hk6, ws, hwsne, hwsall, hthead, hline⟩
    obtain ⟨w, ws', rfl⟩ : ∃ w ws', ws = w :: ws' := by
      cases ws with
      | nil => exact absurd rfl hwsne
      | cons w ws' => exact ⟨w, ws', rfl⟩
    have hrepl : ∀ c ∈ List.replicate k '#', (fun c => c == '#') c = true := by
      intro c hc
      have := List.eq_of_mem_replicate hc
      simp [this]
    have hwhead : ∀ c, ((w :: ws') ++ t).head? = some c →
        (fun c => c == '#') c = false := by
      intro c hc
      simp only [List.cons_append, List.head?_cons, Option.some.injEq] at hc
      subst hc
      have hw : w.isWhitespace = true := hwsall w (List.mem_cons_self _ _)
      exact beq_eq_false_iff_ne.mpr
        (fun heq => by rw [heq] at hw; exact absurd hw (by decide))
    obtain ⟨hT, hD⟩ := takeWhile_all_append (fun c => c == '#')
      (List.replicate k '#') ((w :: ws') ++ t) hrepl hwhead
    have hlineT : line.takeWhile (fun c => c == '#') = List.replicate k '#' := by
      rw [hline, List.append_assoc]
      exact hT
    have hlineD : line.dropWhile (fun c => c == '#') = (w :: ws') ++ t := by
      rw [hline, List.append_assoc]
      exact hD
    obtain ⟨hT2, hD2⟩ := takeWhile_all_append (fun c => c.isWhitespace)
      (w :: ws') t hwsall hthead
    have hlen : (line.takeWhile (fun c => c == '#')).length = k := by
      rw [hlineT, List.length_replicate]
    have hc1 : 1 ≤ (line.takeWhile (fun c => c == '#')).length ∧
        (line.takeWhile (fun c => c == '#')).length ≤ 6 := by
      rw [hlen]
      exact ⟨hk1, hk6⟩
    have hc2 : 1 ≤ ((line.dropWhile (fun c => c == '#')).takeWhile
        (fun c => c.isWhitespace)).length := by
      rw [hlineD, hT2]
      simp
    rw [matchHeader, if_pos hc1, if_pos hc2, hlen, hlineD, hD2]

/-- Spec-level membership in the unfiltered extraction pass, relative to a
starting line index. -/
theorem mem_extractFrom_iff :
    ∀ (ls : List (List Char)) (i : Nat) (r : HeadingRecord),
      r ∈ extractFrom i ls ↔
        ∃ j line, ls[j]? = some line ∧ r.sourceLineIndex = i + j ∧
          matchHeader line = some (r.level, r.text) := by
  intro ls
  induction ls with
  | nil =>
    intro i r
    simp [extractFrom]
  | cons l ls ih =>
    intro i r
    cases hm : matchHeader l with
    | none =>
      simp only [extractFrom, hm]
      rw [ih (i + 1) r]
      constructor
      · rintro ⟨j, line, hget, hidx, hmatch⟩
        exact ⟨j + 1, line, by simpa using hget, by omega, hmatch⟩
      · rintro ⟨j, line, hget, hidx, hmatch⟩
        cases j with
        | zero =>
          simp only [List.getElem?_cons_zero, Option.some.injEq] at hget
          subst hget
          rw [hm] at hmatch
          cases hmatch
        | succ j =>
          exact ⟨j, line, by simpa using hget, by omega, hmatch⟩
    | some kt =>
      obtain ⟨k, t⟩ := kt
      simp only [extractFrom, hm]
      constructor
      · intro h
        rcases List.mem_cons.1 h with h | h
        · subst h
          exact ⟨0, l, by simp, by simp, by simp [hm]⟩
        · obtain ⟨j, line, hget, hidx, hmatch⟩ := (ih (i + 1) r).1 h
          exact ⟨j + 1, line, by simpa using hget, by omega, hmatch⟩
      · rintro ⟨j, line, hget, hidx, hmatch⟩
        cases j with
        | zero =>
          simp only [List.getElem?_cons_zero, Option.some.injEq] at hget
          subst hget
          rw [hm] at hmatch
          simp only [Option.some.injEq, Prod.mk.injEq] at hmatch
          apply List.mem_cons.2
          left
          cases r with
          | mk lv tx si =>
            obtain ⟨hlv, htx⟩ := hmatch
            subst hlv
            subst htx
            have hsi : si = i := by simpa using hidx
            subst hsi
            rfl
        | succ j =>
          exact List.mem_cons.2 (Or.inr ((ih (i + 1) r).2
            ⟨j, line, by simpa using hget, by omega, hmatch⟩))

/-- Records produced by the extraction pass carry indices at or above the
starting index. -/
theorem extractFrom_index_le (ls : List (List Char)) (i : Nat)
    (r : HeadingRecord) (h : r ∈ extractFrom i ls) : i ≤ r.sourceLineIndex := by
  obtain ⟨j, line, _, hidx, _⟩ := (mem_extractFrom_iff ls i r).1 h
  omega

/-- The extraction pass emits records with strictly increasing line
indices: document order, one record per matching line. -/
theorem extractFrom_pairwise (ls : List (List Char)) :
    ∀ i : Nat, (extractFrom i ls).Pairwise
      (fun a b => a.sourceLineIndex < b.sourceLineIndex) := by
  induction ls with
  | nil =>
    intro i
    simp [extractFrom]
  | cons l ls ih =>
    intro i
    cases hm : matchHeader l with
    | none =>
      simp only [extractFrom, hm]
      exact ih (i + 1)
    | some kt =>
      obtain ⟨k, t⟩ := kt
      simp only [extractFrom, hm]
      refine List.Pairwise.cons ?_ (ih (i + 1))
      intro r hr
      have := extractFrom_index_le ls (i + 1) r hr
      show i < r.sourceLineIndex
      omega

/-- The strict spec-side pattern test agrees with the code matcher plus a
non-emptiness check on the text group. -/
theorem lineMatchesStrictAtx_iff (line : List Char) :
    lineMatchesStrictAtx line = true ↔
      ∃ k t, matchHeader line = some (k, t) ∧ t ≠ [] := by
  rw [lineMatchesStrictAtx, matchHeader]
  simp only [Bool.and_eq_true, decide_eq_true_eq]
  by_cases h1 : 1 ≤ (line.takeWhile (fun c => c == '#')).length ∧
      (line.takeWhile (fun c => c == '#')).length ≤ 6
  · by_cases h2 : 1 ≤ ((line.dropWhile (fun c => c == '#')).takeWhile
        (fun c => c.isWhitespace)).length
    · rw [if_pos h1, if_pos h2]
      constructor
      · intro hL
        exact ⟨_, _, rfl, hL.2⟩
      · rintro ⟨k, t, heq, ht⟩
        simp only [Option.some.injEq, Prod.mk.injEq] at heq
        obtain ⟨hk, htx⟩ := heq
        subst htx
        exact ⟨⟨⟨h1.1, h1.2⟩, h2⟩, ht⟩
    · rw [if_pos h1, if_neg h2]
      simp [h2]
  · rw [if_neg h1]
    simp [h1]

/-- The strict spec-side pattern test agrees with the spec-side
decomposition predicate restricted to nonempty text. -/
theorem lineMatchesStrictAtx_iff_spec (line : List Char) :
    lineMatchesStrictAtx line = true ↔ ∃ k t, AtxMatch line k t ∧ t ≠ [] := by
  rw [lineMatchesStrictAtx_iff]
  constructor
  · rintro ⟨k, t, hm, ht⟩
    exact ⟨k, t, (matchHeader_eq_some_iff line k t).1 hm, ht⟩
  · rintro ⟨k, t, hm, ht⟩
    exact ⟨k, t, (matchHeader_eq_some_iff line k t).2 hm, ht⟩

/-- Claim C1 counterexample: the claim requires one record per line
matching the quoted ATX pattern, whose remaining text must be NON-EMPTY;
but on the one-line document `"# "` (hash, space) no line matches that
pattern, yet the extraction pass produces a record (with empty text),
because `(.*)` in the code's regex may match the empty string. -/
theorem extract_strict_pattern_cex :
    lineMatchesStrictAtx ['#', ' '] = false ∧
    extractHeadings ['#', ' '] = [⟨1, [], 0⟩] := by
  constructor <;> decide

/-- Claim C1 (amended): the extraction pass produces exactly one record
per line with 1..6 leading `#` characters followed by at least one
whitespace character (the remaining text may be EMPTY), in document
order, with `level` the count of leading hashes and `text` the remainder
of the line after the first maximal whitespace run. -/
theorem extractHeadings_spec (doc : List Char) :
    (∀ r : HeadingRecord, r ∈ extractHeadings doc ↔
      ∃ line, (splitNl doc)[r.sourceLineIndex]? = some line ∧
        AtxMatch line r.level r.text) ∧
    (extractHeadings doc).Pairwise
      (fun a b => a.sourceLineIndex < b.sourceLineIndex) := by
  constructor
  · intro r
    rw [extractHeadings, mem_extractFrom_iff]
    constructor
    · rintro ⟨j, line, hget, hidx, hmatch⟩
      have hj : r.sourceLineIndex = j := by omega
      subst hj
      exact ⟨line, hget, (matchHeader_eq_some_iff line r.level r.text).1 hmatch⟩
    · rintro ⟨line, hget, hmatch⟩
      exact ⟨r.sourceLineIndex, line, hget, by omega,
        (matchHeader_eq_some_iff line r.level r.text).2 hmatch⟩
  · exact extractFrom_pairwise (splitNl doc) 0

/-- Claim C2 counterexample: a `#` run followed by only whitespace DOES
produce a heading record — on `"# "` the matcher succeeds with empty text
and the extracted list is nonempty, contrary to the claim's third case. -/
theorem hash_whitespace_line_cex :
    (['#', ' '].drop 1).all Char.isWhitespace = true ∧
    matchHeader ['#', ' '] = some (1, []) ∧
    extractHeadings ['#', ' '] ≠ [] := by
  refine ⟨by decide, by decide, by decide⟩

/-- Claim C2 (amended): a line whose leading `#` run has length 7 or more,
or whose `#` run is followed by a non-whitespace character or by nothing
at all, produces no heading record; but a `#` run of length 1..6 followed
by only whitespace DOES produce a record, with empty text.  A line
contributes to the extracted list exactly when the matcher succeeds. -/
theorem matchHeader_malformed (line : List Char) :
    (7 ≤ (line.takeWhile (fun c => c == '#')).length → matchHeader line = none) ∧
    (∀ c, (line.dropWhile (fun c => c == '#')).head? = some c →
      c.isWhitespace = false → matchHeader line = none) ∧
    (line.dropWhile (fun c => c == '#') = [] → matchHeader line = none) ∧
    (∀ (i : Nat) (l : List Char), extractFrom i [l] = [] ↔ matchHeader l = none) ∧
    (1 ≤ (line.takeWhile (fun c => c == '#')).length →
      (line.takeWhile (fun c => c == '#')).length ≤ 6 →
      line.dropWhile (fun c => c == '#') ≠ [] →
      (∀ c ∈ line.dropWhile (fun c => c == '#'), c.isWhitespace = true) →
      matchHeader line = some ((line.takeWhile (fun c => c == '#')).length, [])) := by
  refine ⟨?_, ?_, ?_, ?_, ?_⟩
  · intro h
    rw [matchHeader, if_neg (by omega)]
  · intro c hc hw
    cases hrest : line.dropWhile (fun c => c == '#') with
    | nil =>
      rw [hrest] at hc
      simp at hc
    | cons a tl =>
      rw [hrest] at hc
      simp only [List.head?_cons, Option.some.injEq] at hc
      subst hc
      have hlen : ((line.dropWhile (fun c => c == '#')).takeWhile
          (fun c => c.isWhitespace)).length = 0 := by
        rw [hrest, List.takeWhile_cons, if_neg (by simp [hw])]
        rfl
      by_cases h16 : 1 ≤ (line.takeWhile (fun c => c == '#')).length ∧
          (line.takeWhile (fun c => c == '#')).length ≤ 6
      · rw [matchHeader, if_pos h16, if_neg (by omega)]
      · rw [matchHeader, if_neg h16]
  · intro h
    by_cases h16 : 1 ≤ (line.takeWhile (fun c => c == '#')).length ∧
        (line.takeWhile (fun c => c == '#')).length ≤ 6
    · rw [matchHeader, if_pos h16, if_neg (by rw [h]; simp)]
    · rw [matchHeader, if_neg h16]
  · intro i l
    cases hm : matchHeader l <;> simp [extractFrom, hm]
  · intro h1 h6 hne hall
    have hT : (line.dropWhile (fun c => c == '#')).takeWhile
        (fun c => c.isWhitespace) = line.dropWhile (fun c => c == '#') :=
      List.takeWhile_eq_self_iff.mpr hall
    have hD : (line.dropWhile (fun c => c == '#')).dropWhile
        (fun c => c.isWhitespace) = [] :=
      List.dropWhile_eq_nil_iff.mpr hall
    rw [matchHeader, if_pos ⟨h1, h6⟩,
      if_pos (by rw [hT]; exact List.length_pos.mpr hne), hD]

/-- Witness for C2 (amended): seven hashes, `#` before a letter, a bare
`#`, and `#` before whitespace only. -/
theorem matchHeader_malformed_witness :
    matchHeader (List.replicate 7 '#' ++ [' ', 'x']) = none ∧
    matchHeader ['#', 'a'] = none ∧
    matchHeader ['#'] = none ∧
    matchHeader ['#', ' ', ' '] = some (1, []) := by
  refine ⟨(matchHeader_malformed _).1 (by decide),
    (matchHeader_malformed _).2.1 'a' (by decide) (by decide),
    (matchHeader_malformed _).2.2.1 (by decide), ?_⟩
  exact (matchHeader_malformed ['#', ' ', ' ']).2.2.2.2 (by decide) (by decide)
    (by decide) (by decide)

end BackToTop
